import Mathlib

/-!
Shallow embedding of the `schematic` JSON-schema generator (the generator file
whose package-level functions are `toSnakeCase`, `GenerateProperties`,
`GenerateSchema`, `buildProperties`, `reflectStruct`, `extractFieldInfo`,
`analyzeFieldType`, `handleSliceType`, `handlePointerType`,
`buildFieldProperty`, `shouldUseDefinition`, `createDefinitionReference`,
`buildArrayProperty`, `buildObjectProperty`, `GenerateRequired`,
`typeMapping` and `convertToEventName`).

Go's runtime type descriptors (`reflect.Type`) are modelled by the inductive
`GoType`; struct field lists live in an environment `Env` keyed by the
type's `String()` representation, which also keys the visited map (two
distinct struct types have distinct `String()` forms).  Go maps become
association lists with replace-on-insert (`upsert`); `nil` slices and maps
become `[]`.  The `unicode.IsUpper` / `unicode.ToLower` calls are modelled on
ASCII (Go field identifiers in this repository are ASCII).  The mutually
recursive walk is defined with an explicit fuel parameter; the top-level
entry points run it with fuel `defaultFuel env`, and a stabilisation theorem
below shows the result is unchanged by any larger fuel, which is exactly the
termination of the Go recursion.  A `nil` root type descriptor is the `none`
case: `GenerateRequired` tests for it explicitly, while `buildProperties`
calls `t.Kind()` on it, a nil-interface method call that panics, modelled by
`GenerateProperties`/`GenerateSchema` returning `none`.
-/

inductive GoKind where
  | string | bool
  | int | int8 | int16 | int32 | int64
  | uint | uint8 | uint16 | uint32 | uint64
  | float32 | float64
  | ifaceK | mapK | chanK | funcK
  | slice | ptr | struct
deriving DecidableEq, Repr

/-- Go type descriptors.  `structT str name` is a struct type with
`String()` form `str` (the environment/visited key) and `Name()` form
`name` (`""` for an anonymous struct). -/
inductive GoType where
  | string | bool
  | int | int8 | int16 | int32 | int64
  | uint | uint8 | uint16 | uint32 | uint64
  | float32 | float64
  | iface
  | mapT (key val : GoType)
  | chanT (elem : GoType)
  | funcT
  | slice (elem : GoType)
  | ptr (elem : GoType)
  | structT (str : String) (name : String)
deriving DecidableEq, Repr

def kindOf : GoType → GoKind
  | .string => .string
  | .bool => .bool
  | .int => .int
  | .int8 => .int8
  | .int16 => .int16
  | .int32 => .int32
  | .int64 => .int64
  | .uint => .uint
  | .uint8 => .uint8
  | .uint16 => .uint16
  | .uint32 => .uint32
  | .uint64 => .uint64
  | .float32 => .float32
  | .float64 => .float64
  | .iface => .ifaceK
  | .mapT _ _ => .mapK
  | .chanT _ => .chanK
  | .funcT => .funcK
  | .slice _ => .slice
  | .ptr _ => .ptr
  | .structT _ _ => .struct

/-- `reflect.Kind.String()`. -/
def kindStr : GoKind → String
  | .string => "string"
  | .bool => "bool"
  | .int => "int"
  | .int8 => "int8"
  | .int16 => "int16"
  | .int32 => "int32"
  | .int64 => "int64"
  | .uint => "uint"
  | .uint8 => "uint8"
  | .uint16 => "uint16"
  | .uint32 => "uint32"
  | .uint64 => "uint64"
  | .float32 => "float32"
  | .float64 => "float64"
  | .ifaceK => "interface"
  | .mapK => "map"
  | .chanK => "chan"
  | .funcK => "func"
  | .slice => "slice"
  | .ptr => "ptr"
  | .struct => "struct"

/-- `reflect.Type.Elem()`.  Go panics on kinds without an element type; the
code only calls it behind kind guards, so the catch-all is never reached
there. -/
def elemOf : GoType → GoType
  | .mapT _ v => v
  | .chanT e => e
  | .slice e => e
  | .ptr e => e
  | t => t

/-- `reflect.Type.String()`.  The empty interface prints as
`interface {}` (with a space), so the literal `"interface{}"` comparisons
in the Go code never fire for it. -/
def typeStr : GoType → String
  | .string => "string"
  | .bool => "bool"
  | .int => "int"
  | .int8 => "int8"
  | .int16 => "int16"
  | .int32 => "int32"
  | .int64 => "int64"
  | .uint => "uint"
  | .uint8 => "uint8"
  | .uint16 => "uint16"
  | .uint32 => "uint32"
  | .uint64 => "uint64"
  | .float32 => "float32"
  | .float64 => "float64"
  | .iface => "interface \x7b\x7d"
  | .mapT k v => "map[" ++ typeStr k ++ "]" ++ typeStr v
  | .chanT e => "chan " ++ typeStr e
  | .funcT => "func()"
  | .slice e => "[]" ++ typeStr e
  | .ptr e => "*" ++ typeStr e
  | .structT s _ => s

/-- `reflect.Type.Name()` (empty for anonymous structs; the code only asks
for it on struct types). -/
def structName : GoType → String
  | .structT _ n => n
  | _ => ""

/-- One struct field: declared identifier, raw `json` tag string, type. -/
structure GoField where
  name : String
  tag : String
  type : GoType
deriving DecidableEq, Repr

/-- The program's struct universe: `String()` key to field list. -/
abbrev Env := List (String × List GoField)

def fieldsOf (env : Env) : GoType → List GoField
  | .structT s _ => (env.lookup s).getD []
  | _ => []

/-- `toSnakeCase`, character by character: an upper-case letter is
lower-cased and, unless it is the first character, prefixed with `_`. -/
def snakeChars : List Char → Nat → List Char
  | [], _ => []
  | c :: cs, i =>
    if c.isUpper then
      (if i > 0 then ['_', c.toLower] else [c.toLower]) ++ snakeChars cs (i + 1)
    else c :: snakeChars cs (i + 1)

def toSnakeCase (s : String) : String := String.mk (snakeChars s.data 0)

/-- Does the second list start with the first?  (`strings.HasPrefix`,
character level.) -/
def startsWithChars : List Char → List Char → Bool
  | [], _ => true
  | _ :: _, [] => false
  | p :: ps, c :: cs => p == c && startsWithChars ps cs

def goHasPrefix (s p : String) : Bool := startsWithChars p.data s.data

def containsChars : List Char → List Char → Bool
  | s, sub =>
    if startsWithChars sub s then true
    else
      match s with
      | [] => false
      | _ :: cs => containsChars cs sub

/-- `strings.Contains`. -/
def goContains (s sub : String) : Bool := containsChars s.data sub.data

/-- `strings.Split` on a single-character separator. -/
def splitOnChar (sep : Char) : List Char → List (List Char)
  | [] => [[]]
  | c :: cs =>
    if c == sep then [] :: splitOnChar sep cs
    else
      match splitOnChar sep cs with
      | [] => [[c]]
      | g :: gs => (c :: g) :: gs

/-- `strings.Split(tag, ",")`. -/
def tagArgs (tag : String) : List String := (splitOnChar ',' tag.data).map String.mk

/-- `args[0]` (`strings.Split` never returns an empty slice). -/
def tagName0 (tag : String) : String := (tagArgs tag).headD ("")

/-- `strings.Join(args, ",")`. -/
def joinComma : List String → String
  | [] => ""
  | [s] => s
  | s :: rest => s ++ "," ++ joinComma rest

/-- `strings.Join(args[1:], ",")`. -/
def tagRest (tag : String) : String := joinComma (tagArgs tag).tail

/-- `PropertyDefinition` (recursive through `items` and `properties`). -/
inductive PropertyDefinition where
  | mk (type : String) (description : String) (format : String)
       (required : List String) (items : Option PropertyDefinition)
       (properties : List (String × PropertyDefinition)) (ref : String)

def PropertyDefinition.type : PropertyDefinition → String
  | .mk t _ _ _ _ _ _ => t

def PropertyDefinition.description : PropertyDefinition → String
  | .mk _ d _ _ _ _ _ => d

def PropertyDefinition.format : PropertyDefinition → String
  | .mk _ _ f _ _ _ _ => f

def PropertyDefinition.required : PropertyDefinition → List String
  | .mk _ _ _ r _ _ _ => r

def PropertyDefinition.items : PropertyDefinition → Option PropertyDefinition
  | .mk _ _ _ _ i _ _ => i

def PropertyDefinition.properties : PropertyDefinition → List (String × PropertyDefinition)
  | .mk _ _ _ _ _ p _ => p

def PropertyDefinition.ref : PropertyDefinition → String
  | .mk _ _ _ _ _ _ r => r

abbrev Props := List (String × PropertyDefinition)

/-- Go map assignment `m[k] = v`: replace in place or append. -/
def upsert : Props → String → PropertyDefinition → Props
  | [], k, v => [(k, v)]
  | (k', v') :: rest, k, v =>
    if k' == k then (k, v) :: rest else (k', v') :: upsert rest k v

def mapKeys (m : Props) : List String := m.map Prod.fst

/-- `schemaContext`. -/
structure SchemaCtx where
  visited : List String
  definitions : Props
  counter : Nat

/-- `Schema` (the `$defs` map is a plain list here; Go only attaches it when
non-empty, which for serialisation equals attaching the empty map). -/
structure Schema where
  schemaURL : String
  title : String
  type : String
  required : List String
  properties : Props
  definitions : Props

/-- `fieldInfo`. -/
structure FieldInfo where
  fieldName : String
  fieldType : GoType
  TagName : String
  TypeName : String := ""
  Format : String := ""
  SliceFormat : String := ""
  SliceType : String := ""
  SkipNested : Bool := false
  IsArray : Bool := false

/-- The `typeMapping` table, in source order. -/
def typeMapping : List (String × String × String × Bool) :=
  [ ("uuid.UUID", "string", "uuid", true),
    ("EventName", "string", "", true),
    ("*string", "string", "", true),
    ("string", "string", "", true),
    ("float64", "number", "", true),
    ("*float64", "number", "", true),
    ("float32", "number", "", true),
    ("*float32", "number", "", true),
    ("int", "integer", "", true),
    ("*int", "integer", "", true),
    ("uint", "integer", "", true),
    ("*uint", "integer", "", true),
    ("uint8", "integer", "", true),
    ("*uint8", "integer", "", true),
    ("uint16", "integer", "", true),
    ("*uint16", "integer", "", true),
    ("uint32", "integer", "", true),
    ("*uint32", "integer", "", true),
    ("uint64", "integer", "", true),
    ("*uint64", "integer", "", true),
    ("int8", "integer", "", true),
    ("*int8", "integer", "", true),
    ("int16", "integer", "", true),
    ("*int16", "integer", "", true),
    ("int32", "integer", "", true),
    ("*int32", "integer", "", true),
    ("int64", "integer", "", true),
    ("*int64", "integer", "", true),
    ("bool", "boolean", "", true),
    ("*bool", "boolean", "", true),
    ("time.Time", "string", "date-time", true),
    ("*time.Time", "string", "date-time", true),
    ("interface\x7b\x7d", "", "", false),
    ("*interface\x7b\x7d", "", "", false),
    ("any", "", "", false),
    ("json.RawMessage", "string", "", true),
    ("*json.RawMessage", "string", "", true),
    ("[]byte", "string", "byte", true),
    ("*[]byte", "string", "byte", true) ]

def lookupMapping (s : String) : Option (String × String × Bool) :=
  (typeMapping.find? (fun e => e.1 == s)).map (fun e => e.2)

/-- `convertToEventName` with a nil type descriptor.  The recursive calls
inside the Go function always pass nil, so they land in this case and
recurse no further; the function is unrolled here accordingly. -/
def convertToEventNameNil (defType : String) : String × String × Bool :=
  if defType == "interface\x7b\x7d" || defType == "*interface\x7b\x7d" then ("", "", true)
  else
    match lookupMapping defType with
    | some m => m
    | none =>
      if goHasPrefix defType ("map[") then ("object", "", true)
      else if goHasPrefix defType ("chan ")
          || goHasPrefix defType ("<-chan ")
          || goHasPrefix defType ("chan<- ") then ("string", "", true)
      else if goHasPrefix defType ("func(") then ("string", "", true)
      else (defType, "", false)

/-- `convertToEventName`. -/
def convertToEventName (defType : String) (refType : Option GoType) :
    String × String × Bool :=
  if defType == "interface\x7b\x7d" || defType == "*interface\x7b\x7d" then ("", "", true)
  else
    match lookupMapping defType with
    | some m => m
    | none =>
      if goHasPrefix defType ("map[") then ("object", "", true)
      else if goHasPrefix defType ("chan ")
          || goHasPrefix defType ("<-chan ")
          || goHasPrefix defType ("chan<- ") then ("string", "", true)
      else if goHasPrefix defType ("func(") then ("string", "", true)
      else
        match refType with
        | some f =>
          if kindOf f == GoKind.ifaceK then ("", "", true)
          else if kindStr (kindOf f) != "ptr" then
            convertToEventNameNil (kindStr (kindOf f))
          else if kindOf (elemOf f) != GoKind.struct then
            convertToEventNameNil (kindStr (kindOf (elemOf f)))
          else (defType, "", false)
        | none => (defType, "", false)

/-- `handleSliceType`. -/
def handleSliceType (info : FieldInfo) (fieldType : GoType) : FieldInfo :=
  let elemType := elemOf fieldType
  let st0 := kindStr (kindOf elemType)
  let st1 := if st0 == "ptr" then typeStr elemType else st0
  let r := convertToEventName st1 none
  { info with SliceType := r.1, SliceFormat := r.2.1, SkipNested := r.2.2 }

/-- `handlePointerType`. -/
def handlePointerType (info : FieldInfo) (fieldType : GoType) : FieldInfo :=
  let elemType := elemOf fieldType
  if kindOf elemType == GoKind.slice then
    let st := typeStr (elemOf elemType)
    let r := convertToEventName st (some fieldType)
    { info with IsArray := true, TypeName := "array",
                SliceType := r.1, SliceFormat := r.2.1, SkipNested := r.2.2 }
  else
    let r := convertToEventName info.TypeName (some fieldType)
    { info with TypeName := r.1, Format := r.2.1, SkipNested := r.2.2 }

/-- `analyzeFieldType`. -/
def analyzeFieldType (info0 : FieldInfo) : FieldInfo :=
  let tn := typeStr info0.fieldType
  let info := { info0 with TypeName := tn }
  if tn == "interface\x7b\x7d" then
    { info with TypeName := "", Format := "", SkipNested := true }
  else if tn == "[]byte" || tn == "[]uint8" then
    { info with TypeName := "string", Format := "byte", SkipNested := true, IsArray := false }
  else
    match kindOf info.fieldType with
    | GoKind.slice => handleSliceType { info with IsArray := true, TypeName := "array" } info.fieldType
    | GoKind.ptr => handlePointerType info info.fieldType
    | _ =>
      let r := convertToEventName info.TypeName (some info.fieldType)
      { info with TypeName := r.1, Format := r.2.1, SkipNested := r.2.2 }

/-- `extractFieldInfo`. -/
def extractFieldInfo (f : GoField) : FieldInfo :=
  let tn0 := tagName0 f.tag
  if tn0 == "-" then
    { fieldName := f.name, fieldType := f.type, TagName := "-" }
  else
    let tagName := if tn0.length == 0 then toSnakeCase f.name else tn0
    analyzeFieldType { fieldName := f.name, fieldType := f.type, TagName := tagName }

/-- The field loop of `GenerateRequired`. -/
def requiredLoop : List GoField → List String
  | [] => []
  | f :: rest =>
    if f.tag == "-" then requiredLoop rest
    else if kindOf f.type == GoKind.slice then requiredLoop rest
    else if kindOf f.type != GoKind.ptr then
      let tn0 := tagName0 f.tag
      let tagName := if tn0.length == 0 then toSnakeCase f.name else tn0
      let omitempty := tagRest f.tag
      if !goContains omitempty ("omitempty") then tagName :: requiredLoop rest
      else requiredLoop rest
    else
      let tn0 := tagName0 f.tag
      if tn0 == "tags" then tn0 :: requiredLoop rest
      else requiredLoop rest

/-- `GenerateRequired`.  The listed non-struct kinds return early in the Go
switch; with the trailing struct check this amounts to: anything that is not
a struct (after one dereference for pointer roots) yields the empty list.
`t.Elem()` of a pointer is never nil, so the post-dereference nil test is
vacuous. -/
def GenerateRequired (env : Env) (object : Option GoType) (nestedObject : Option GoType) :
    List String :=
  let t0 := match nestedObject with
    | some nt => some nt
    | none => object
  match t0 with
  | none => []
  | some t1 =>
    let t2 := if kindOf t1 == GoKind.ptr then elemOf t1 else t1
    if kindOf t1 != GoKind.ptr && kindOf t1 != GoKind.struct then []
    else if kindOf t2 != GoKind.struct then []
    else requiredLoop (fieldsOf env t2)

/-- `shouldUseDefinition`. -/
def shouldUseDefinition (fieldType : GoType) (nested : Props) : Bool :=
  nested.length > 2 && kindOf fieldType == GoKind.struct

/-- `createDefinitionReference`. -/
def createDefinitionReference (info : FieldInfo) (nested : Props)
    (required : List String) (ctx : SchemaCtx) : PropertyDefinition × SchemaCtx :=
  let defName0 := structName info.fieldType
  let defName := if defName0 == "" then "AnonymousStruct" ++ toString ctx.counter else defName0
  let ctx1 := if defName0 == "" then { ctx with counter := ctx.counter + 1 } else ctx
  let stored := PropertyDefinition.mk "object" info.fieldName "" required none nested ""
  let ctx2 :=
    if (ctx1.definitions.lookup defName).isSome then ctx1
    else { ctx1 with definitions := upsert ctx1.definitions defName stored }
  (PropertyDefinition.mk "" info.fieldName "" [] none [] ("#/$defs/" ++ defName), ctx2)

/-- `buildArrayProperty`. -/
def buildArrayProperty (info : FieldInfo) (nested : Props) (required : List String) :
    PropertyDefinition :=
  let sliceTypeName := if nested.length > 0 then "object" else info.SliceType
  let items := PropertyDefinition.mk sliceTypeName info.fieldName info.SliceFormat required none nested ""
  PropertyDefinition.mk "array" info.fieldName info.Format required (some items) [] ""

/-- `buildObjectProperty`. -/
def buildObjectProperty (info : FieldInfo) (nested : Props) (required : List String) :
    PropertyDefinition :=
  let typeName := if nested.length > 0 && info.TypeName != "array" then "object" else info.TypeName
  PropertyDefinition.mk typeName info.fieldName info.Format required none nested ""

/-- In the pointer case `buildProperties` reassigns the outer `t` to its
element when that element is a slice of structs, and the trailing
`GenerateRequired(nil, t)` sees the reassigned value. -/
def requiredTarget (t : GoType) : GoType :=
  match t with
  | .ptr e =>
    match e with
    | .slice e2 => if kindOf e2 == GoKind.struct then e else t
    | _ => t
  | _ => t

/-- `buildFieldProperty`, parameterised over the recursive descent into
`buildProperties` (which passes `nestedCounter + 1`; the Go
`nestedCounter = 0` afterwards writes to a by-value copy and has no effect
on any later field). -/
def buildFieldPropertyF (descend : GoType → SchemaCtx → Props × List String × SchemaCtx)
    (info : FieldInfo) (ctx : SchemaCtx) : PropertyDefinition × SchemaCtx :=
  let r0 :=
    if !info.SkipNested then descend info.fieldType ctx
    else ([], [], ctx)
  let nested := r0.1
  let required := r0.2.1
  let ctx1 := r0.2.2
  if shouldUseDefinition info.fieldType nested then
    createDefinitionReference info nested required ctx1
  else if info.IsArray then (buildArrayProperty info nested required, ctx1)
  else (buildObjectProperty info nested required, ctx1)

/-- The field loop of `reflectStruct` (the Go map accumulates left to
right), parameterised over the same descent. -/
def reflectFieldsF (descend : GoType → SchemaCtx → Props × List String × SchemaCtx) :
    List GoField → Props → SchemaCtx → Props × SchemaCtx
  | [], acc, ctx => (acc, ctx)
  | f :: rest, acc, ctx =>
    let info := extractFieldInfo f
    if info.TagName == "-" || info.TagName == "" then reflectFieldsF descend rest acc ctx
    else
      let r := buildFieldPropertyF descend info ctx
      reflectFieldsF descend rest (upsert acc info.TagName r.1) r.2

/-- `buildProperties`, with explicit fuel for the Go recursion (the
stabilisation theorem below shows any fuel above `defaultFuel env` gives
the same result, i.e. the Go recursion terminates). -/
def buildProperties (env : Env) (fuel : Nat) (t : GoType) (ctx : SchemaCtx) (n : Nat) :
    Props × List String × SchemaCtx :=
  match fuel with
  | 0 => ([], [], ctx)
  | fuel' + 1 =>
    let descend := fun (t' : GoType) (c : SchemaCtx) => buildProperties env fuel' t' c (n + 1)
    let r :=
      match kindOf t with
      | GoKind.slice =>
        let e0 := elemOf t
        let e1 := if kindOf e0 == GoKind.ptr then elemOf e0 else e0
        if kindOf e1 != GoKind.struct then ([], ctx)
        else if ctx.visited.contains (typeStr e1) && n > 1 then ([], ctx)
        else
          reflectFieldsF descend (fieldsOf env e1) []
            { ctx with visited := typeStr e1 :: ctx.visited }
      | GoKind.struct =>
        if ctx.visited.contains (typeStr t) && n > 1 then ([], ctx)
        else
          reflectFieldsF descend (fieldsOf env t) []
            { ctx with visited := typeStr t :: ctx.visited }
      | GoKind.ptr =>
        let t1 := requiredTarget t
        if kindOf (elemOf t1) != GoKind.struct then ([], ctx)
        else
          let e := elemOf t1
          if ctx.visited.contains (typeStr e) && n > 1 then ([], ctx)
          else
            reflectFieldsF descend (fieldsOf env e) []
              { ctx with visited := typeStr e :: ctx.visited }
      | _ => ([], ctx)
    (r.1, GenerateRequired env none (some (requiredTarget t)), r.2)

/-- `buildFieldProperty` at a given fuel and branch counter. -/
def buildFieldProperty (env : Env) (fuel : Nat) (info : FieldInfo) (ctx : SchemaCtx) (n : Nat) :
    PropertyDefinition × SchemaCtx :=
  buildFieldPropertyF (fun t' c => buildProperties env fuel t' c (n + 1)) info ctx

/-- The field loop at a given fuel and branch counter. -/
def reflectFields (env : Env) (fuel : Nat) (fields : List GoField) (acc : Props)
    (ctx : SchemaCtx) (n : Nat) : Props × SchemaCtx :=
  reflectFieldsF (fun t' c => buildProperties env fuel t' c (n + 1)) fields acc ctx

/-- Enough fuel for any walk over `env` (see the stabilisation theorem). -/
def defaultFuel (env : Env) : Nat := 3 * env.length + 3

/-- `reflectStruct` as called on a struct type directly. -/
def reflectStruct (env : Env) (fuel : Nat) (t : GoType) (ctx : SchemaCtx) (n : Nat) :
    Props × SchemaCtx :=
  reflectFields env fuel (fieldsOf env t) [] ctx n

/-- `GenerateProperties`.  A nil root (`none`) reaches
`buildProperties`, whose `t.Kind()` is a method call on a nil interface
value and panics; that panic is the `none` result. -/
def GenerateProperties (env : Env) (t : Option GoType) : Option Props :=
  match t with
  | none => none
  | some t0 => some (buildProperties env (defaultFuel env) t0 ⟨[], [], 0⟩ 0).1

/-- `GenerateSchema` (panics on a nil root for the same reason). -/
def GenerateSchema (env : Env) (t : Option GoType) (title schemaURL : String) :
    Option Schema :=
  match t with
  | none => none
  | some t0 =>
    let r := buildProperties env (defaultFuel env) t0 ⟨[], [], 0⟩ 0
    some { schemaURL := schemaURL, title := title, type := "object",
           required := GenerateRequired env (some t0) none,
           properties := r.1,
           definitions := r.2.2.definitions }

/-! ### Shared helper lemmas -/

theorem analyzeFieldType_TagName (i : FieldInfo) :
    (analyzeFieldType i).TagName = i.TagName := by
  unfold analyzeFieldType handleSliceType handlePointerType
  dsimp only
  split
  · rfl
  split
  · rfl
  split <;> (try split) <;> rfl

theorem analyzeFieldType_fieldType (i : FieldInfo) :
    (analyzeFieldType i).fieldType = i.fieldType := by
  unfold analyzeFieldType handleSliceType handlePointerType
  dsimp only
  split
  · rfl
  split
  · rfl
  split <;> (try split) <;> rfl

theorem analyzeFieldType_fieldName (i : FieldInfo) :
    (analyzeFieldType i).fieldName = i.fieldName := by
  unfold analyzeFieldType handleSliceType handlePointerType
  dsimp only
  split
  · rfl
  split
  · rfl
  split <;> (try split) <;> rfl

theorem extractFieldInfo_fieldType (f : GoField) :
    (extractFieldInfo f).fieldType = f.type := by
  unfold extractFieldInfo
  dsimp only
  split
  · rfl
  · rw [analyzeFieldType_fieldType]

theorem defs_ref_ne_empty (d : String) : ("#/$defs/" ++ d) ≠ "" := by
  intro h
  have hlen := congrArg String.length h
  simp [String.length_append] at hlen
  exact absurd hlen.1 (by decide)

theorem buildFieldProperty_eq (env : Env) (fuel : Nat) (info : FieldInfo) (ctx : SchemaCtx) (n : Nat) :
    buildFieldProperty env fuel info ctx n =
      (fun r0 =>
        if shouldUseDefinition info.fieldType r0.1 then createDefinitionReference info r0.1 r0.2.1 r0.2.2
        else if info.IsArray then (buildArrayProperty info r0.1 r0.2.1, r0.2.2)
        else (buildObjectProperty info r0.1 r0.2.1, r0.2.2))
      (if !info.SkipNested then buildProperties env fuel info.fieldType ctx (n + 1) else ([], [], ctx)) := by
  unfold buildFieldProperty buildFieldPropertyF
  rfl

theorem analyzeFieldType_byte (i : FieldInfo) (h : i.fieldType = GoType.slice GoType.uint8) :
    analyzeFieldType i =
      { i with TypeName := "string", Format := "byte", SkipNested := true, IsArray := false } := by
  unfold analyzeFieldType
  dsimp only
  rw [h, show typeStr (GoType.slice GoType.uint8) = ("[]uint8") from rfl]
  rw [if_neg (by decide), if_pos (by decide)]

/-! ### Claim theorems -/

/-- C7: for every field whose `json` tag has an empty name component the
external key is the case-converted identifier, and `toSnakeCase` maps
`PascalCaseField` to `pascal_case_field`, `XMLHttpRequest` to
`x_m_l_http_request` and `IOHandler` to `i_o_handler` (each upper-case
letter after the first character is prefixed with an underscore and
lower-cased, consecutive upper-case runs not collapsed). -/
theorem c7_snake_case_external_key :
    (∀ f : GoField, tagName0 f.tag = "" →
        (extractFieldInfo f).TagName = toSnakeCase f.name)
    ∧ toSnakeCase ("PascalCaseField") = "pascal_case_field"
    ∧ toSnakeCase ("XMLHttpRequest") = "x_m_l_http_request"
    ∧ toSnakeCase ("IOHandler") = "i_o_handler" := by
  refine ⟨?_, by decide, by decide, by decide⟩
  intro f h
  unfold extractFieldInfo
  dsimp only
  rw [h]
  rw [if_neg (by decide), if_pos (by decide)]
  rw [analyzeFieldType_TagName]

/-- Witness for C7: the untagged field `PascalCaseField` gets external key
`pascal_case_field`. -/
theorem c7_snake_case_external_key_witness :
    (extractFieldInfo { name := "PascalCaseField", tag := "", type := GoType.string }).TagName
      = "pascal_case_field" := by
  rw [c7_snake_case_external_key.1
        { name := "PascalCaseField", tag := "", type := GoType.string } (by decide)]
  decide

/-- C6: a raw byte-blob field (slice of `uint8`, i.e. Go `[]byte` /
`[]uint8`) classifies to `string` with `byte` format before generic slice
handling (`IsArray` stays false, `SkipNested` is set), and the emitted
property is string-typed with no item definition — never array-typed. -/
theorem c6_byte_blob_never_array :
    ∀ (env : Env) (fuel : Nat) (ctx : SchemaCtx) (n : Nat) (f : GoField),
      f.type = GoType.slice GoType.uint8 → tagName0 f.tag ≠ "-" →
      (extractFieldInfo f).TypeName = "string"
      ∧ (extractFieldInfo f).Format = "byte"
      ∧ (extractFieldInfo f).IsArray = false
      ∧ (extractFieldInfo f).SkipNested = true
      ∧ (buildFieldProperty env fuel (extractFieldInfo f) ctx n).1.type = "string"
      ∧ (buildFieldProperty env fuel (extractFieldInfo f) ctx n).1.format = "byte"
      ∧ (buildFieldProperty env fuel (extractFieldInfo f) ctx n).1.items = none := by
  intro env fuel ctx n f hf htag
  have hinfo : extractFieldInfo f =
      { fieldName := f.name, fieldType := f.type,
        TagName := if (tagName0 f.tag).length == 0 then toSnakeCase f.name else tagName0 f.tag,
        TypeName := "string", Format := "byte", SliceFormat := "", SliceType := "",
        SkipNested := true, IsArray := false } := by
    unfold extractFieldInfo
    dsimp only
    rw [if_neg (by simpa using htag)]
    rw [analyzeFieldType_byte _ hf]
  rw [hinfo, buildFieldProperty_eq]
  dsimp only
  rw [if_neg (by simp [shouldUseDefinition]), if_neg (by simp)]
  simp [buildObjectProperty, PropertyDefinition.type, PropertyDefinition.format,
    PropertyDefinition.items]

/-- Witness for C6 at a concrete byte-blob field. -/
theorem c6_byte_blob_never_array_witness :
    (buildFieldProperty [] 0
        (extractFieldInfo { name := "ByteSlice", tag := "byte_slice", type := GoType.slice GoType.uint8 })
        ⟨[], [], 0⟩ 0).1.type = "string" :=
  (c6_byte_blob_never_array [] 0 ⟨[], [], 0⟩ 0
    { name := "ByteSlice", tag := "byte_slice", type := GoType.slice GoType.uint8 }
    rfl (by decide)).2.2.2.2.1

/-- C10: a field whose declared type has pointer kind is never replaced by
a `$defs` reference node, whatever its expansion produces; only a field of
struct kind can yield a reference property. -/
theorem c10_pointer_never_ref :
    ∀ (env : Env) (fuel : Nat) (info : FieldInfo) (ctx : SchemaCtx) (n : Nat),
      (kindOf info.fieldType = GoKind.ptr →
        (buildFieldProperty env fuel info ctx n).1.ref = "")
      ∧ ((buildFieldProperty env fuel info ctx n).1.ref ≠ "" →
        kindOf info.fieldType = GoKind.struct) := by
  intro env fuel info ctx n
  rw [buildFieldProperty_eq]
  generalize (if !info.SkipNested then buildProperties env fuel info.fieldType ctx (n + 1)
      else ([], [], ctx)) = r0
  dsimp only
  split
  · next hud =>
    have hstruct : kindOf info.fieldType = GoKind.struct := by
      simp [shouldUseDefinition, Bool.and_eq_true] at hud
      exact hud.2
    constructor
    · intro hptr
      rw [hptr] at hstruct
      exact absurd hstruct (by decide)
    · intro _
      exact hstruct
  · next hud =>
    have harr : ∀ b : Bool, ((if b = true then (buildArrayProperty info r0.1 r0.2.1, r0.2.2)
        else (buildObjectProperty info r0.1 r0.2.1, r0.2.2)).1).ref = "" := by
      intro b
      cases b
      · simp [buildObjectProperty, PropertyDefinition.ref]
      · simp [buildArrayProperty, PropertyDefinition.ref]
    constructor
    · intro _
      exact harr info.IsArray
    · intro habs
      exact absurd (harr info.IsArray) habs

/-- Witness for C10 at a concrete pointer-to-struct field. -/
theorem c10_pointer_never_ref_witness :
    (buildFieldProperty [] 3
        { fieldName := "P", fieldType := GoType.ptr GoType.string, TagName := "p" }
        ⟨[], [], 0⟩ 0).1.ref = "" :=
  (c10_pointer_never_ref [] 3
    { fieldName := "P", fieldType := GoType.ptr GoType.string, TagName := "p" }
    ⟨[], [], 0⟩ 0).1 rfl

/-! ### Required-set characterisation (for C1, C5, C8) -/

/-- External key as `GenerateRequired` computes it for the fields it
appends: the tag's name component, or the snake-cased identifier when that
component is empty. -/
def requiredKeyOf (f : GoField) : String :=
  let tn0 := tagName0 f.tag
  if tn0.length == 0 then toSnakeCase f.name else tn0

/-- The condition under which `GenerateRequired` keeps a field: tag not
`-`, kind not slice, and — for non-pointer kinds — no `omitempty` modifier,
while a pointer-kind field is kept exactly when its tag name component is
the literal `tags`. -/
def amendedRequiredPred (f : GoField) : Bool :=
  if f.tag == "-" then false
  else if kindOf f.type == GoKind.slice then false
  else if kindOf f.type != GoKind.ptr then !goContains (tagRest f.tag) ("omitempty")
  else tagName0 f.tag == "tags"

/-- The literal condition of the claim: not skipped, not sequence-shaped,
not a non-pointer field with an omit-if-empty marker; plus the stated
exception that a pointer field with external key `tags` is always
required. -/
def c1ClaimPred (f : GoField) : Bool :=
  (f.tag != "-" && kindOf f.type != GoKind.slice
      && !(kindOf f.type != GoKind.ptr && goContains (tagRest f.tag) ("omitempty")))
    || (kindOf f.type == GoKind.ptr && requiredKeyOf f == "tags")

theorem requiredLoop_eq (fs : List GoField) :
    requiredLoop fs = (fs.filter amendedRequiredPred).map requiredKeyOf := by
  induction fs with
  | nil => rfl
  | cons f rest ih =>
    unfold requiredLoop
    dsimp only
    simp only [List.filter_cons]
    by_cases h1 : (f.tag == "-") = true
    · simp [amendedRequiredPred, h1, ih]
    · by_cases h2 : (kindOf f.type == GoKind.slice) = true
      · simp [amendedRequiredPred, h1, h2, ih]
      · by_cases h3 : (kindOf f.type != GoKind.ptr) = true
        · by_cases h4 : goContains (tagRest f.tag) ("omitempty") = true
          · simp [amendedRequiredPred, h1, h2, h3, h4, ih]
          · simp [amendedRequiredPred, requiredKeyOf, h1, h2, h3, h4, ih]
        · by_cases h5 : (tagName0 f.tag == "tags") = true
          · have h5' : tagName0 f.tag = "tags" := by simpa using h5
            simp [amendedRequiredPred, requiredKeyOf, h1, h2, h3, h5, h5', ih]
            rw [if_neg (by decide)]
          · simp [amendedRequiredPred, h1, h2, h3, h5, ih]

theorem generateRequired_struct_eq (env : Env) (s nm : String) :
    GenerateRequired env (some (GoType.structT s nm)) none =
      ((fieldsOf env (GoType.structT s nm)).filter amendedRequiredPred).map requiredKeyOf := by
  unfold GenerateRequired
  dsimp only
  rw [if_neg (by simp [kindOf]), if_neg (by simp [kindOf])]
  exact requiredLoop_eq _

/-- The `SimpleStruct` type of the repository's tests. -/
def simpleStructFields : List GoField :=
  [ { name := "FieldString", tag := "field_string", type := GoType.string },
    { name := "FieldStringPtr", tag := "field_string_ptr", type := GoType.ptr GoType.string },
    { name := "FieldStringSlice", tag := "field_string_slice", type := GoType.slice GoType.string },
    { name := "FieldInt", tag := "field_int", type := GoType.int },
    { name := "FieldInt32", tag := "field_int32", type := GoType.int32 },
    { name := "FieldInt64", tag := "field_int64", type := GoType.int64 },
    { name := "FieldFloat32", tag := "field_float32", type := GoType.float32 },
    { name := "FieldFloat64", tag := "field_float64", type := GoType.float64 } ]

def tSimple : GoType := GoType.structT "schematic.SimpleStruct" "SimpleStruct"

def envSimple : Env := [("schematic.SimpleStruct", simpleStructFields)]

/-- C1 (amended): for a composite (struct) type, `GenerateRequired`
returns, in declaration order, the external keys of exactly those fields
that are not skipped (tag not `-`), not sequence-shaped, and either
non-pointer without an `omitempty` modifier or pointer-shaped with tag
name component exactly `tags`. -/
theorem c1_required_membership (env : Env) (s nm : String) :
    GenerateRequired env (some (GoType.structT s nm)) none =
      ((fieldsOf env (GoType.structT s nm)).filter amendedRequiredPred).map requiredKeyOf :=
  generateRequired_struct_eq env s nm

/-- Counterexample to C1 as stated: the pointer field `FieldStringPtr`
of `SimpleStruct` satisfies the claim's literal condition (not skipped, not
sequence-shaped, not a non-pointer field with an omit marker), yet its
external key is absent from the required list the code computes. -/
def fieldStringPtr : GoField :=
  { name := "FieldStringPtr", tag := "field_string_ptr", type := GoType.ptr GoType.string }

theorem c1_counterexample :
    c1ClaimPred fieldStringPtr = true
    ∧ requiredKeyOf fieldStringPtr = "field_string_ptr"
    ∧ fieldStringPtr ∈ simpleStructFields
    ∧ "field_string_ptr" ∉ GenerateRequired envSimple (some tSimple) none := by
  decide

theorem createDefinitionReference_ref_ne (i : FieldInfo) (ns : Props) (rq : List String)
    (c : SchemaCtx) : (createDefinitionReference i ns rq c).1.ref ≠ "" := by
  unfold createDefinitionReference
  dsimp only [PropertyDefinition.ref]
  exact defs_ref_ne_empty _

theorem arrayOrObject_ref (info : FieldInfo) (nested : Props) (required : List String)
    (ctx1 : SchemaCtx) :
    ((if info.IsArray then (buildArrayProperty info nested required, ctx1)
      else (buildObjectProperty info nested required, ctx1)).1).ref = "" := by
  split
  · simp [buildArrayProperty, PropertyDefinition.ref]
  · simp [buildObjectProperty, PropertyDefinition.ref]

/-- The definition-hoisting scenario: a composite `S` with three
sub-properties used by two sibling fields of the root. -/
def envHoist : Env :=
  [ ("main.RootD", [⟨"A", "a", GoType.structT "main.S" "S"⟩,
                    ⟨"B", "b", GoType.structT "main.S" "S"⟩]),
    ("main.S", [⟨"X", "x", GoType.string⟩, ⟨"Y", "y", GoType.string⟩,
                ⟨"Z", "z", GoType.string⟩]) ]

def tRootD : GoType := GoType.structT "main.RootD" "RootD"

def schemaHoist : Option Schema := GenerateSchema envHoist (some tRootD) ("t") ("u")

/-- An anonymous composite with three sub-properties. -/
def anonStr : String := "struct \x7b X string; Y string; Z string \x7d"

def envAnon : Env :=
  [ ("main.RootA", [⟨"A", "a", GoType.structT anonStr ""⟩]),
    (anonStr, [⟨"X", "x", GoType.string⟩, ⟨"Y", "y", GoType.string⟩,
               ⟨"Z", "z", GoType.string⟩]) ]

def tRootA : GoType := GoType.structT "main.RootA" "RootA"

/-- C3: a field is emitted as a `$defs` reference exactly when the descent
was allowed (`SkipNested` false), its type is of struct kind, and its
nested property count exceeds two; and in the concrete scenario — a
composite `S` with three sub-properties used by two sibling fields —
exactly one definition (`S`) is stored, both properties are reference
nodes pointing at `#/$defs/S` carrying only the reference pointer and the
field's documentation label, and an anonymous composite is stored under
the synthesized unique name `AnonymousStruct0`. -/
theorem c3_definition_hoisting :
    (∀ (env : Env) (fuel : Nat) (info : FieldInfo) (ctx : SchemaCtx) (n : Nat),
      ((buildFieldProperty env fuel info ctx n).1.ref ≠ "")
        ↔ (info.SkipNested = false ∧ kindOf info.fieldType = GoKind.struct
            ∧ (buildProperties env fuel info.fieldType ctx (n + 1)).1.length > 2))
    ∧ schemaHoist.map (fun sc => mapKeys sc.definitions) = some ["S"]
    ∧ schemaHoist.map (fun sc => mapKeys sc.properties) = some ["a", "b"]
    ∧ schemaHoist.map (fun sc => (sc.properties.lookup ("a")).map
        (fun p => (p.ref, p.type, p.description, p.format, p.required,
          p.items.isNone, p.properties.isEmpty)))
      = some (some ("#/$defs/S", "", "A", "", [], true, true))
    ∧ schemaHoist.map (fun sc => (sc.properties.lookup ("b")).map
        (fun p => (p.ref, p.type, p.description, p.format, p.required,
          p.items.isNone, p.properties.isEmpty)))
      = some (some ("#/$defs/S", "", "B", "", [], true, true))
    ∧ (GenerateSchema envAnon (some tRootA) ("t") ("u")).map
        (fun sc => mapKeys sc.definitions) = some ["AnonymousStruct0"] := by
  refine ⟨?_, by decide, by decide, by rfl, by rfl, by decide⟩
  intro env fuel info ctx n
  rw [buildFieldProperty_eq]
  by_cases hs : info.SkipNested = true
  · rw [if_neg (by simp [hs])]
    dsimp only
    rw [if_neg (by simp [shouldUseDefinition])]
    constructor
    · intro h
      exact absurd (arrayOrObject_ref info _ _ _) h
    · intro h
      rw [hs] at h
      exact absurd h.1 (by decide)
  · have hs' : info.SkipNested = false := by simpa using hs
    rw [if_pos (by simp [hs'])]
    dsimp only
    by_cases hd : shouldUseDefinition info.fieldType
        (buildProperties env fuel info.fieldType ctx (n + 1)).1 = true
    · rw [if_pos hd]
      simp only [shouldUseDefinition, Bool.and_eq_true, decide_eq_true_eq, beq_iff_eq] at hd
      constructor
      · intro _
        exact ⟨hs', hd.2, hd.1⟩
      · intro _
        exact createDefinitionReference_ref_ne _ _ _ _
    · rw [if_neg hd]
      constructor
      · intro h
        exact absurd (arrayOrObject_ref info _ _ _) h
      · intro h
        exfalso
        apply hd
        simp only [shouldUseDefinition, Bool.and_eq_true, decide_eq_true_eq, beq_iff_eq]
        exact ⟨h.2.2, h.2.1⟩

/-- A root type on which the walk's kind switch takes no expanding branch:
not a struct, not a slice of (possibly pointer-to) struct, and not a
pointer whose dereference (with the slice-of-struct adjustment) is a
struct. -/
def notCompositeRoot (t : GoType) : Bool :=
  match kindOf t with
  | GoKind.slice =>
    let e0 := elemOf t
    let e1 := if kindOf e0 == GoKind.ptr then elemOf e0 else e0
    kindOf e1 != GoKind.struct
  | GoKind.struct => false
  | GoKind.ptr => kindOf (elemOf (requiredTarget t)) != GoKind.struct
  | _ => true

theorem buildProperties_notComposite (env : Env) (fuel : Nat) (t : GoType) (ctx : SchemaCtx)
    (n : Nat) (h : notCompositeRoot t = true) :
    buildProperties env (fuel + 1) t ctx n =
      ([], GenerateRequired env none (some (requiredTarget t)), ctx) := by
  rw [buildProperties.eq_def]
  dsimp only
  cases hk : kindOf t <;> simp_all [notCompositeRoot]

theorem generateRequired_notComposite (env : Env) (t : GoType)
    (h : notCompositeRoot t = true) :
    GenerateRequired env (some t) none = [] := by
  unfold GenerateRequired
  dsimp only
  by_cases hp : kindOf t = GoKind.ptr
  · obtain ⟨e, rfl⟩ : ∃ e, t = GoType.ptr e := by
      cases t <;> simp_all [kindOf]
    cases e <;> simp_all [notCompositeRoot, kindOf, elemOf, requiredTarget]
  · by_cases hst : kindOf t = GoKind.struct
    · rw [show notCompositeRoot t = false from by simp [notCompositeRoot, hst]] at h
      exact absurd h (by decide)
    · rw [if_pos (by simp [hp, hst])]

/-- C9 (amended): for a non-composite root both entry points degrade
gracefully (empty property mapping, empty required list), and
`GenerateRequired` also handles a nil root; but `GenerateProperties` (and
`GenerateSchema`) dereference the nil type descriptor inside
`buildProperties` and panic on a nil root (the `none` result). -/
theorem c9_graceful_degradation :
    (∀ (env : Env) (t : GoType), notCompositeRoot t = true →
      GenerateProperties env (some t) = some []
      ∧ GenerateRequired env (some t) none = [])
    ∧ (∀ env : Env, GenerateRequired env none none = [])
    ∧ (∀ env : Env, GenerateProperties env none = none) := by
  refine ⟨?_, fun env => rfl, fun env => rfl⟩
  intro env t h
  refine ⟨?_, generateRequired_notComposite env t h⟩
  unfold GenerateProperties
  dsimp only
  rw [show defaultFuel env = 3 * env.length + 2 + 1 from rfl]
  rw [buildProperties_notComposite env _ t ⟨[], [], 0⟩ 0 h]

/-- Counterexample to C9 as stated: on a nil root `GenerateProperties`
does not return an empty property mapping — the nil type descriptor is
dereferenced (`t.Kind()` on a nil interface) and the call panics, modelled
by `none`. -/
theorem c9_counterexample :
    GenerateProperties ([] : Env) none = none
    ∧ GenerateProperties ([] : Env) none ≠ some [] :=
  ⟨rfl, fun h => Option.noConfusion h⟩

/-- Witness for C9 at the concrete non-composite root `int`. -/
theorem c9_graceful_degradation_witness :
    GenerateProperties ([] : Env) (some GoType.int) = some []
    ∧ GenerateRequired ([] : Env) (some GoType.int) none = [] :=
  c9_graceful_degradation.1 [] GoType.int (by decide)

theorem analyzeFieldType_iface (i : FieldInfo) (h : i.fieldType = GoType.iface) :
    analyzeFieldType i = { i with TypeName := "", Format := "", SkipNested := true } := by
  unfold analyzeFieldType
  dsimp only
  rw [h]
  rw [if_neg (by decide), if_neg (by decide)]
  dsimp only [kindOf]
  rw [show convertToEventName (typeStr GoType.iface) (some GoType.iface) = ("", "", true) from by decide]

/-- The `EdgeCaseStruct` type of the repository's tests (the fields the
claims need). -/
def edgeFields : List GoField :=
  [ ⟨"MapField", "map_field", GoType.mapT GoType.string GoType.iface⟩,
    ⟨"InterfaceField", "interface_field", GoType.iface⟩,
    ⟨"ByteSlice", "byte_slice", GoType.slice GoType.uint8⟩,
    ⟨"SkippedField", "-", GoType.string⟩,
    ⟨"UintField", "uint_field", GoType.uint64⟩ ]

def tEdge : GoType := GoType.structT "schematic.EdgeCaseStruct" "EdgeCaseStruct"

def envEdge : Env := [("schematic.EdgeCaseStruct", edgeFields)]

/-- C8 (amended): an opaque (interface-kind) field is emitted as a property
with empty type, no format, no items and no nested properties; its external
key follows the ordinary non-pointer required rule — it is in the required
list exactly when its tag is not `-` and carries no `omitempty` modifier
(so an unmarked opaque field IS required). -/
theorem c8_opaque_field :
    (∀ (env : Env) (fuel : Nat) (ctx : SchemaCtx) (n : Nat) (f : GoField),
      f.type = GoType.iface → tagName0 f.tag ≠ "-" →
      (buildFieldProperty env fuel (extractFieldInfo f) ctx n).1.type = ""
      ∧ (buildFieldProperty env fuel (extractFieldInfo f) ctx n).1.format = ""
      ∧ (buildFieldProperty env fuel (extractFieldInfo f) ctx n).1.items = none
      ∧ (buildFieldProperty env fuel (extractFieldInfo f) ctx n).1.properties = [])
    ∧ (∀ (env : Env) (s nm : String),
        GenerateRequired env (some (GoType.structT s nm)) none =
          ((fieldsOf env (GoType.structT s nm)).filter amendedRequiredPred).map requiredKeyOf)
    ∧ (∀ f : GoField, f.type = GoType.iface →
        amendedRequiredPred f = (f.tag != "-" && !goContains (tagRest f.tag) ("omitempty"))) := by
  refine ⟨?_, fun env s nm => generateRequired_struct_eq env s nm, ?_⟩
  · intro env fuel ctx n f hf htag
    have hinfo : extractFieldInfo f =
        { fieldName := f.name, fieldType := f.type,
          TagName := if (tagName0 f.tag).length == 0 then toSnakeCase f.name else tagName0 f.tag,
          TypeName := "", Format := "", SliceFormat := "", SliceType := "",
          SkipNested := true, IsArray := false } := by
      unfold extractFieldInfo
      dsimp only
      rw [if_neg (by simpa using htag)]
      rw [analyzeFieldType_iface _ hf]
    rw [hinfo, buildFieldProperty_eq]
    dsimp only
    rw [if_neg (by simp [shouldUseDefinition]), if_neg (by simp)]
    simp [buildObjectProperty, PropertyDefinition.type, PropertyDefinition.format,
      PropertyDefinition.items, PropertyDefinition.properties]
  · intro f hf
    unfold amendedRequiredPred
    rw [hf]
    by_cases ht : (f.tag == "-") = true
    · have ht' : f.tag = "-" := by simpa using ht
      simp [ht', kindOf]
    · have ht' : ¬f.tag = "-" := by simpa using ht
      simp [ht', kindOf]

/-- Counterexample to C8 as stated: the unmarked opaque field
`interface_field` of `EdgeCaseStruct` IS in the required list (the claim
says it never is), while its property indeed has empty type and format. -/
theorem c8_counterexample :
    "interface_field" ∈ GenerateRequired envEdge (some tEdge) none
    ∧ (GenerateProperties envEdge (some tEdge)).map
        (fun ps => (ps.lookup ("interface_field")).map (fun p => (p.type, p.format)))
      = some (some ("", "")) := by
  refine ⟨by decide, by rfl⟩

/-- Witness for C8 at a concrete opaque field. -/
theorem c8_opaque_field_witness :
    (buildFieldProperty [] 0
        (extractFieldInfo ⟨"InterfaceField", "interface_field", GoType.iface⟩)
        ⟨[], [], 0⟩ 0).1.type = "" :=
  (c8_opaque_field.1 [] 0 ⟨[], [], 0⟩ 0
    ⟨"InterfaceField", "interface_field", GoType.iface⟩ rfl (by decide)).1

theorem mapKeys_upsert_self (m : Props) (k : String) (v : PropertyDefinition) :
    k ∈ mapKeys (upsert m k v) := by
  induction m with
  | nil => simp [upsert, mapKeys]
  | cons hd tl ih =>
    unfold upsert
    by_cases h : (hd.1 == k) = true
    · simp [h, mapKeys]
    · simp only [h]
      simp [mapKeys] at ih ⊢
      right
      exact ih

theorem mapKeys_upsert_mono (m : Props) (k a : String) (v : PropertyDefinition)
    (h : a ∈ mapKeys m) : a ∈ mapKeys (upsert m k v) := by
  induction m with
  | nil => simp [mapKeys] at h
  | cons hd tl ih =>
    unfold upsert
    by_cases hh : (hd.1 == k) = true
    · have : hd.1 = k := by simpa using hh
      simp [hh, mapKeys] at h ⊢
      rcases h with h | h
      · left
        rw [← this, h]
      · right
        exact h
    · simp [hh, mapKeys] at h ⊢
      rcases h with h | h
      · left
        exact h
      · right
        have := ih (by simpa [mapKeys] using h)
        simpa [mapKeys] using this

theorem reflectFieldsF_keys_mono (descend) (fields : List GoField) :
    ∀ (acc : Props) (ctx : SchemaCtx) (a : String), a ∈ mapKeys acc →
      a ∈ mapKeys (reflectFieldsF descend fields acc ctx).1 := by
  induction fields with
  | nil =>
    intro acc ctx a ha
    simpa [reflectFieldsF] using ha
  | cons f rest ih =>
    intro acc ctx a ha
    unfold reflectFieldsF
    dsimp only
    split
    · exact ih acc ctx a ha
    · exact ih _ _ a (mapKeys_upsert_mono _ _ _ _ ha)

theorem reflectFieldsF_key_mem (descend) (fields : List GoField) :
    ∀ (acc : Props) (ctx : SchemaCtx) (f : GoField), f ∈ fields →
      (extractFieldInfo f).TagName ≠ "-" → (extractFieldInfo f).TagName ≠ "" →
      (extractFieldInfo f).TagName ∈ mapKeys (reflectFieldsF descend fields acc ctx).1 := by
  induction fields with
  | nil =>
    intro acc ctx f hf
    simp at hf
  | cons g rest ih =>
    intro acc ctx f hf h1 h2
    rcases List.mem_cons.mp hf with rfl | hmem
    · unfold reflectFieldsF
      dsimp only
      rw [if_neg (by simp [h1, h2])]
      exact reflectFieldsF_keys_mono descend rest _ _ _ (mapKeys_upsert_self _ _ _)
    · unfold reflectFieldsF
      dsimp only
      split
      · exact ih acc ctx f hmem h1 h2
      · exact ih _ _ f hmem h1 h2

theorem snakeChars_ne_nil (c : Char) (cs : List Char) (i : Nat) : snakeChars (c :: cs) i ≠ [] := by
  unfold snakeChars
  split
  · split <;> simp
  · simp

theorem toSnakeCase_ne_empty : ∀ (s : String), s ≠ "" → toSnakeCase s ≠ ""
  | ⟨[]⟩, h => absurd rfl h
  | ⟨c :: cs⟩, _ => by
    unfold toSnakeCase
    intro hcon
    have hdata : snakeChars (c :: cs) 0 = [] := by
      have := congrArg String.data hcon
      simpa using this
    exact snakeChars_ne_nil c cs 0 hdata

theorem amendedPred_tag_ne (f : GoField) (h : amendedRequiredPred f = true) : f.tag ≠ "-" := by
  unfold amendedRequiredPred at h
  by_cases ht : (f.tag == "-") = true
  · rw [if_pos ht] at h
    exact absurd h (by decide)
  · simpa using ht

theorem extract_key_facts (f : GoField) (hpred : amendedRequiredPred f = true)
    (h1 : f.name ≠ "") (h2 : toSnakeCase f.name ≠ "-")
    (h3 : tagName0 f.tag = "-" → f.tag = "-") :
    (extractFieldInfo f).TagName = requiredKeyOf f
    ∧ requiredKeyOf f ≠ "-" ∧ requiredKeyOf f ≠ "" := by
  have htag : f.tag ≠ "-" := amendedPred_tag_ne f hpred
  have htn0 : tagName0 f.tag ≠ "-" := fun hc => htag (h3 hc)
  refine ⟨?_, ?_, ?_⟩
  · unfold extractFieldInfo
    dsimp only
    rw [if_neg (by simpa using htn0)]
    rw [analyzeFieldType_TagName]
    rfl
  · unfold requiredKeyOf
    dsimp only
    split
    · exact h2
    · exact htn0
  · unfold requiredKeyOf
    dsimp only
    split
    · exact toSnakeCase_ne_empty f.name h1
    · next hlen =>
      intro hc
      rw [hc] at hlen
      exact hlen (by decide)

theorem generateProperties_struct (env : Env) (s nm : String) :
    GenerateProperties env (some (GoType.structT s nm)) =
      some (reflectFields env (3 * env.length + 2) (fieldsOf env (GoType.structT s nm)) []
        ⟨[s], [], 0⟩ 0).1 := by
  unfold GenerateProperties reflectFields
  dsimp only
  rw [show defaultFuel env = 3 * env.length + 2 + 1 from rfl, buildProperties.eq_def]
  dsimp only [kindOf]
  rw [if_neg (by simp)]
  rfl

theorem generateProperties_ptrStruct (env : Env) (s nm : String) :
    GenerateProperties env (some (GoType.ptr (GoType.structT s nm))) =
      some (reflectFields env (3 * env.length + 2) (fieldsOf env (GoType.structT s nm)) []
        ⟨[s], [], 0⟩ 0).1 := by
  unfold GenerateProperties reflectFields
  dsimp only
  rw [show defaultFuel env = 3 * env.length + 2 + 1 from rfl, buildProperties.eq_def]
  dsimp only [kindOf, requiredTarget, elemOf]
  rw [if_neg (by simp [kindOf]), if_neg (by simp)]
  rfl

theorem generateRequired_ptrStruct_eq (env : Env) (s nm : String) :
    GenerateRequired env (some (GoType.ptr (GoType.structT s nm))) none =
      ((fieldsOf env (GoType.structT s nm)).filter amendedRequiredPred).map requiredKeyOf := by
  unfold GenerateRequired
  dsimp only
  rw [if_neg (by simp [kindOf]), if_neg (by simp [kindOf, elemOf])]
  simp only [kindOf, elemOf]
  rw [if_pos (by decide)]
  exact requiredLoop_eq _

theorem c5_required_subset (env : Env) (t : GoType)
    (hsane : ∀ (s nm : String), ∀ f ∈ fieldsOf env (GoType.structT s nm),
      f.name ≠ "" ∧ toSnakeCase f.name ≠ "-" ∧ (tagName0 f.tag = "-" → f.tag = "-")) :
    ∀ props, GenerateProperties env (some t) = some props →
      ∀ k ∈ GenerateRequired env (some t) none, k ∈ mapKeys props := by
  intro props hprops k hk
  have core : ∀ (s nm : String),
      props = (reflectFields env (3 * env.length + 2) (fieldsOf env (GoType.structT s nm)) []
        ⟨[s], [], 0⟩ 0).1 →
      k ∈ ((fieldsOf env (GoType.structT s nm)).filter amendedRequiredPred).map requiredKeyOf →
      k ∈ mapKeys props := by
    intro s nm hp hkm
    obtain ⟨f, hfmem, hkey⟩ := List.mem_map.mp hkm
    obtain ⟨hfin, hpred⟩ := List.mem_filter.mp hfmem
    obtain ⟨h1, h2, h3⟩ := hsane s nm f hfin
    obtain ⟨heq, hne1, hne2⟩ := extract_key_facts f hpred h1 h2 h3
    subst hp
    unfold reflectFields
    have hmem := reflectFieldsF_key_mem
      (fun t' c => buildProperties env (3 * env.length + 2) t' c (0 + 1))
      (fieldsOf env (GoType.structT s nm)) [] ⟨[s], [], 0⟩ f hfin
      (by rw [heq]; exact hne1) (by rw [heq]; exact hne2)
    rw [heq, hkey] at hmem
    exact hmem
  cases t
  case structT s nm =>
    rw [generateProperties_struct env s nm] at hprops
    rw [generateRequired_struct_eq env s nm] at hk
    exact core s nm (Option.some.inj hprops).symm hk
  case ptr e =>
    cases e
    case structT s nm =>
      rw [generateProperties_ptrStruct env s nm] at hprops
      rw [generateRequired_ptrStruct_eq env s nm] at hk
      exact core s nm (Option.some.inj hprops).symm hk
    all_goals simp [GenerateRequired, kindOf, elemOf] at hk
  all_goals simp [GenerateRequired, kindOf] at hk

/-- A struct whose field carries the json tag `-,` (the encoding/json
convention for a literal `-` key): `GenerateRequired` compares the whole
tag against `-` while the property walk compares only the name component,
so the two disagree on this field. -/
def envDash : Env := [("main.W", [⟨"Dash", "-,", GoType.string⟩])]

def tW : GoType := GoType.structT "main.W" "W"

/-- C5 (amended): for every root type whose reachable struct fields have
non-empty names, snake-case keys other than `-`, and no tag whose name
component is `-` unless the whole tag is `-`, every key in the required
list also occurs among the property-mapping keys. -/
theorem c5_required_subset_of_keys (env : Env) (t : GoType)
    (hsane : ∀ (s nm : String), ∀ f ∈ fieldsOf env (GoType.structT s nm),
      f.name ≠ "" ∧ toSnakeCase f.name ≠ "-" ∧ (tagName0 f.tag = "-" → f.tag = "-")) :
    ∀ props, GenerateProperties env (some t) = some props →
      ∀ k ∈ GenerateRequired env (some t) none, k ∈ mapKeys props :=
  c5_required_subset env t hsane

/-- Counterexample to C5 as stated: with the tag `-,` the key `-` is in
the required list but the property mapping is empty. -/
theorem c5_counterexample :
    "-" ∈ GenerateRequired envDash (some tW) none
    ∧ (GenerateProperties envDash (some tW)).map mapKeys = some [] := by
  refine ⟨by decide, by rfl⟩

/-- Witness for C5 on the concrete `SimpleStruct`. -/
theorem c5_required_subset_of_keys_witness :
    "field_string" ∈ mapKeys
      ((buildProperties envSimple (defaultFuel envSimple) tSimple ⟨[], [], 0⟩ 0).1) := by
  refine c5_required_subset_of_keys envSimple tSimple ?_ _ rfl "field_string" (by decide)
  intro s nm f hf
  by_cases hs : (s == "schematic.SimpleStruct") = true
  · simp only [fieldsOf, envSimple, List.lookup, hs] at hf
    simp at hf
    fin_cases hf <;> refine ⟨by decide, by decide, by decide⟩
  · simp [fieldsOf, envSimple, List.lookup, hs] at hf


mutual
def propOk : PropertyDefinition → Bool
  | .mk t _ _ _ items props _ =>
    (t == "array" || items.isNone) && optOk items && propsOk props
def optOk : Option PropertyDefinition → Bool
  | none => true
  | some p => propOk p
def propsOk : List (String × PropertyDefinition) → Bool
  | [] => true
  | (_, p) :: rest => propOk p && propsOk rest
end


theorem str_append_ne (p r s : String) (hp : p.data ≠ [])
    (h0 : s.data.head? ≠ p.data.head?) : (p ++ r) ≠ s := by
  intro hc
  apply h0
  rw [← hc]
  rw [show (p ++ r).data = p.data ++ r.data from String.data_append p r]
  cases hd : p.data with
  | nil => exact absurd hd hp
  | cons c cs => simp [hd]

theorem propsOk_upsert (m : Props) (k : String) (v : PropertyDefinition)
    (hm : propsOk m = true) (hv : propOk v = true) : propsOk (upsert m k v) = true := by
  induction m with
  | nil => simp [upsert, propsOk, hv]
  | cons hd tl ih =>
    unfold upsert
    obtain ⟨a, b⟩ := hd
    rw [propsOk] at hm
    simp only [Bool.and_eq_true] at hm
    by_cases hh : (a == k) = true
    · simp only [hh, if_pos]
      rw [propsOk]
      simp [hv, hm.2]
    · simp only [hh]
      rw [if_neg (by simp [hh]), propsOk]
      simp [hm.1, ih hm.2]

theorem storedDef_ok (nm : String) (rq : List String) (ns : Props) (hn : propsOk ns = true) :
    propOk (PropertyDefinition.mk "object" nm "" rq none ns "") = true := by
  rw [propOk]
  simp [optOk, hn]

theorem createDefinitionReference_defs_ok (i : FieldInfo) (ns : Props) (rq : List String)
    (c : SchemaCtx) (hc : propsOk c.definitions = true) (hn : propsOk ns = true) :
    propsOk (createDefinitionReference i ns rq c).2.definitions = true := by
  unfold createDefinitionReference
  dsimp only
  split
  all_goals split
  all_goals try dsimp only
  all_goals first
    | exact hc
    | exact propsOk_upsert _ _ _ hc (storedDef_ok _ _ _ hn)

theorem createDefinitionReference_prop_ok (i : FieldInfo) (ns : Props) (rq : List String)
    (c : SchemaCtx) : propOk (createDefinitionReference i ns rq c).1 = true := by
  unfold createDefinitionReference
  dsimp only
  rw [propOk]
  simp [PropertyDefinition.items, optOk, propsOk]

theorem buildFieldPropertyF_ok
    (descend : GoType → SchemaCtx → Props × List String × SchemaCtx)
    (Hd : ∀ (t : GoType) (c : SchemaCtx), propsOk c.definitions = true →
      propsOk (descend t c).1 = true ∧ propsOk (descend t c).2.2.definitions = true)
    (info : FieldInfo) (ctx : SchemaCtx) (hctx : propsOk ctx.definitions = true) :
    propOk (buildFieldPropertyF descend info ctx).1 = true
    ∧ propsOk (buildFieldPropertyF descend info ctx).2.definitions = true := by
  unfold buildFieldPropertyF
  dsimp only
  have hnested : propsOk (if !info.SkipNested then descend info.fieldType ctx
      else ([], [], ctx)).1 = true := by
    split
    · exact (Hd _ _ hctx).1
    · rfl
  have hdefs : propsOk (if !info.SkipNested then descend info.fieldType ctx
      else ([], [], ctx)).2.2.definitions = true := by
    split
    · exact (Hd _ _ hctx).2
    · exact hctx
  generalize hr : (if !info.SkipNested then descend info.fieldType ctx
      else ([], [], ctx)) = r0 at hnested hdefs
  split
  · exact ⟨createDefinitionReference_prop_ok _ _ _ _,
      createDefinitionReference_defs_ok _ _ _ _ hdefs hnested⟩
  · split
    · refine ⟨?_, hdefs⟩
      unfold buildArrayProperty
      dsimp only
      rw [propOk]
      simp [optOk, propOk, propsOk, hnested]
    · refine ⟨?_, hdefs⟩
      unfold buildObjectProperty
      dsimp only
      rw [propOk]
      simp [optOk, propsOk, hnested]

theorem reflectFieldsF_ok
    (descend : GoType → SchemaCtx → Props × List String × SchemaCtx)
    (Hd : ∀ (t : GoType) (c : SchemaCtx), propsOk c.definitions = true →
      propsOk (descend t c).1 = true ∧ propsOk (descend t c).2.2.definitions = true)
    (fields : List GoField) :
    ∀ (acc : Props) (ctx : SchemaCtx), propsOk acc = true → propsOk ctx.definitions = true →
      propsOk (reflectFieldsF descend fields acc ctx).1 = true
      ∧ propsOk (reflectFieldsF descend fields acc ctx).2.definitions = true := by
  induction fields with
  | nil =>
    intro acc ctx ha hc
    exact ⟨ha, hc⟩
  | cons f rest ih =>
    intro acc ctx ha hc
    unfold reflectFieldsF
    dsimp only
    split
    · exact ih acc ctx ha hc
    · have hb := buildFieldPropertyF_ok descend Hd (extractFieldInfo f) ctx hc
      exact ih _ _ (propsOk_upsert _ _ _ ha hb.1) hb.2

theorem buildProperties_ok (env : Env) :
    ∀ (fuel : Nat) (t : GoType) (ctx : SchemaCtx) (n : Nat),
      propsOk ctx.definitions = true →
      propsOk (buildProperties env fuel t ctx n).1 = true
      ∧ propsOk (buildProperties env fuel t ctx n).2.2.definitions = true := by
  intro fuel
  induction fuel with
  | zero =>
    intro t ctx n hctx
    exact ⟨rfl, hctx⟩
  | succ fuel' ih =>
    intro t ctx n hctx
    rw [buildProperties.eq_def]
    dsimp only
    have Hd : ∀ (t' : GoType) (c : SchemaCtx), propsOk c.definitions = true →
        propsOk (buildProperties env fuel' t' c (n + 1)).1 = true
        ∧ propsOk (buildProperties env fuel' t' c (n + 1)).2.2.definitions = true :=
      fun t' c hc => ih t' c (n + 1) hc
    cases hk : kindOf t <;> simp only [hk]
    all_goals try exact ⟨rfl, hctx⟩
    all_goals repeat' split
    all_goals try exact ⟨rfl, hctx⟩
    all_goals exact reflectFieldsF_ok _ Hd _ _ _ rfl hctx

theorem handleSliceType_keeps (i : FieldInfo) (ft : GoType) :
    (handleSliceType i ft).IsArray = i.IsArray ∧ (handleSliceType i ft).TypeName = i.TypeName
    ∧ (handleSliceType i ft).fieldType = i.fieldType := by
  unfold handleSliceType
  exact ⟨rfl, rfl, rfl⟩

theorem analyzeFieldType_slice_arr (i : FieldInfo) (e : GoType) (h : i.fieldType = GoType.slice e)
    (hb1 : typeStr i.fieldType ≠ "[]byte") (hb2 : typeStr i.fieldType ≠ "[]uint8") :
    (analyzeFieldType i).IsArray = true ∧ (analyzeFieldType i).TypeName = "array"
    ∧ (analyzeFieldType i).fieldType = i.fieldType := by
  have hni : typeStr i.fieldType ≠ "interface\x7b\x7d" := by
    rw [h]
    exact str_append_ne ("[]") (typeStr e) _ (by decide) (by decide)
  unfold analyzeFieldType
  dsimp only
  rw [if_neg (by simpa using hni), if_neg (by simp; exact ⟨by simpa using hb1, by simpa using hb2⟩)]
  rw [show kindOf i.fieldType = GoKind.slice from by rw [h]; rfl]
  dsimp only
  refine ⟨?_, ?_, ?_⟩
  · rw [(handleSliceType_keeps _ _).1]
  · rw [(handleSliceType_keeps _ _).2.1]
  · rw [(handleSliceType_keeps _ _).2.2]

theorem analyzeFieldType_ptrSlice_arr (i : FieldInfo) (e : GoType) (h : i.fieldType = GoType.ptr e)
    (hse : kindOf e = GoKind.slice) :
    (analyzeFieldType i).IsArray = true ∧ (analyzeFieldType i).TypeName = "array"
    ∧ (analyzeFieldType i).fieldType = i.fieldType := by
  have hni : typeStr i.fieldType ≠ "interface\x7b\x7d" := by
    rw [h]
    exact str_append_ne ("*") (typeStr e) _ (by decide) (by decide)
  have hb1 : typeStr i.fieldType ≠ "[]byte" := by
    rw [h]
    exact str_append_ne ("*") (typeStr e) _ (by decide) (by decide)
  have hb2 : typeStr i.fieldType ≠ "[]uint8" := by
    rw [h]
    exact str_append_ne ("*") (typeStr e) _ (by decide) (by decide)
  unfold analyzeFieldType
  dsimp only
  rw [if_neg (by simpa using hni), if_neg (by simp; exact ⟨by simpa using hb1, by simpa using hb2⟩)]
  rw [show kindOf i.fieldType = GoKind.ptr from by rw [h]; rfl]
  dsimp only
  unfold handlePointerType
  dsimp only
  rw [show kindOf (elemOf i.fieldType) = GoKind.slice from by rw [h]; exact hse]
  rw [if_pos (by rfl)]
  exact ⟨rfl, rfl, rfl⟩

theorem buildFieldProperty_array (env : Env) (fuel : Nat) (info : FieldInfo) (ctx : SchemaCtx)
    (n : Nat) (hia : info.IsArray = true) (hks : kindOf info.fieldType ≠ GoKind.struct) :
    (buildFieldProperty env fuel info ctx n).1.type = "array"
    ∧ (buildFieldProperty env fuel info ctx n).1.items.isSome = true := by
  rw [buildFieldProperty_eq]
  generalize (if !info.SkipNested then buildProperties env fuel info.fieldType ctx (n + 1)
      else ([], [], ctx)) = r0
  dsimp only
  rw [if_neg (by simp [shouldUseDefinition]; intro _; exact fun hc => hks (by simpa using hc))]
  rw [if_pos hia]
  unfold buildArrayProperty
  dsimp only
  exact ⟨rfl, rfl⟩

theorem extract_slice_arr (f : GoField) (e : GoType) (he : f.type = GoType.slice e)
    (hb1 : typeStr f.type ≠ "[]byte") (hb2 : typeStr f.type ≠ "[]uint8")
    (htag : tagName0 f.tag ≠ "-") :
    (extractFieldInfo f).IsArray = true ∧ (extractFieldInfo f).fieldType = f.type := by
  unfold extractFieldInfo
  dsimp only
  rw [if_neg (by simpa using htag)]
  have h := analyzeFieldType_slice_arr
    { fieldName := f.name, fieldType := f.type,
      TagName := if (tagName0 f.tag).length == 0 then toSnakeCase f.name else tagName0 f.tag }
    e he hb1 hb2
  exact ⟨h.1, h.2.2⟩

theorem extract_ptrSlice_arr (f : GoField) (e : GoType) (he : f.type = GoType.ptr e)
    (hse : kindOf e = GoKind.slice) (htag : tagName0 f.tag ≠ "-") :
    (extractFieldInfo f).IsArray = true ∧ (extractFieldInfo f).fieldType = f.type := by
  unfold extractFieldInfo
  dsimp only
  rw [if_neg (by simpa using htag)]
  have h := analyzeFieldType_ptrSlice_arr
    { fieldName := f.name, fieldType := f.type,
      TagName := if (tagName0 f.tag).length == 0 then toSnakeCase f.name else tagName0 f.tag }
    e he hse
  exact ⟨h.1, h.2.2⟩

/-- C4 (amended): every sequence-shaped field other than a raw byte blob —
slice-kind fields whose `String()` is not `[]uint8`/`[]byte`, and
pointer-to-slice fields — is emitted with type `array` and a non-nil item
definition; and in every property mapping the walk or the schema assembler
produces (nested mappings, item definitions and `$defs` entries included),
a property whose type is not `array` never carries an item definition. -/
theorem c4_array_items_invariant :
    (∀ (env : Env) (fuel : Nat) (ctx : SchemaCtx) (n : Nat) (f : GoField) (e : GoType),
      f.type = GoType.slice e → typeStr f.type ≠ "[]byte" → typeStr f.type ≠ "[]uint8" →
      tagName0 f.tag ≠ "-" →
      (buildFieldProperty env fuel (extractFieldInfo f) ctx n).1.type = "array"
      ∧ (buildFieldProperty env fuel (extractFieldInfo f) ctx n).1.items.isSome = true)
    ∧ (∀ (env : Env) (fuel : Nat) (ctx : SchemaCtx) (n : Nat) (f : GoField) (e : GoType),
      f.type = GoType.ptr e → kindOf e = GoKind.slice → tagName0 f.tag ≠ "-" →
      (buildFieldProperty env fuel (extractFieldInfo f) ctx n).1.type = "array"
      ∧ (buildFieldProperty env fuel (extractFieldInfo f) ctx n).1.items.isSome = true)
    ∧ (∀ (env : Env) (t : Option GoType),
        (GenerateProperties env t).all (fun ps => propsOk ps) = true)
    ∧ (∀ (env : Env) (t : Option GoType) (title url : String),
        (GenerateSchema env t title url).all
          (fun sc => propsOk sc.properties && propsOk sc.definitions) = true) := by
  refine ⟨?_, ?_, ?_, ?_⟩
  · intro env fuel ctx n f e he hb1 hb2 htag
    have hx := extract_slice_arr f e he hb1 hb2 htag
    exact buildFieldProperty_array env fuel _ ctx n hx.1
      (by rw [hx.2, he]; simp [kindOf])
  · intro env fuel ctx n f e he hse htag
    have hx := extract_ptrSlice_arr f e he hse htag
    exact buildFieldProperty_array env fuel _ ctx n hx.1
      (by rw [hx.2, he]; simp [kindOf])
  · intro env t
    cases t with
    | none => rfl
    | some t0 =>
      have h := buildProperties_ok env (defaultFuel env) t0 ⟨[], [], 0⟩ 0 rfl
      simpa [GenerateProperties, Option.all] using h.1
  · intro env t title url
    cases t with
    | none => rfl
    | some t0 =>
      have h := buildProperties_ok env (defaultFuel env) t0 ⟨[], [], 0⟩ 0 rfl
      simp [GenerateSchema, Option.all]
      exact ⟨h.1, h.2⟩

/-- Counterexample to C4 as stated: a `[]byte`/`[]uint8` field is
sequence-shaped (slice kind) but its property is emitted with type
`string`, not `array`. -/
theorem c4_counterexample :
    kindOf (GoType.slice GoType.uint8) = GoKind.slice
    ∧ (buildFieldProperty [] 1
        (extractFieldInfo ⟨"JSONRaw", "json_raw", GoType.slice GoType.uint8⟩)
        ⟨[], [], 0⟩ 0).1.type = "string"
    ∧ (buildFieldProperty [] 1
        (extractFieldInfo ⟨"JSONRaw", "json_raw", GoType.slice GoType.uint8⟩)
        ⟨[], [], 0⟩ 0).1.type ≠ "array" := by
  refine ⟨rfl, by decide, by decide⟩

/-- Witness for C4 at a concrete `[]string` field. -/
theorem c4_array_items_invariant_witness :
    (buildFieldProperty [] 1
        (extractFieldInfo ⟨"FieldStringSlice", "field_string_slice", GoType.slice GoType.string⟩)
        ⟨[], [], 0⟩ 0).1.type = "array" :=
  (c4_array_items_invariant.1 [] 1 ⟨[], [], 0⟩ 0
    ⟨"FieldStringSlice", "field_string_slice", GoType.slice GoType.string⟩ GoType.string
    rfl (by decide) (by decide) (by decide)).1

/-! ### Termination of the walk: measure and stabilisation (for C2) -/

theorem lookup_mem_fst (env : Env) (s : String) (v : List GoField)
    (h : env.lookup s = some v) : s ∈ env.map Prod.fst := by
  induction env with
  | nil => simp at h
  | cons p rest ih =>
    rw [List.lookup] at h
    by_cases hs : (s == p.1) = true
    · have hsp : s = p.1 := by simpa using hs
      simp [hsp]
    · rw [Bool.not_eq_true] at hs
      rw [hs] at h
      right
      exact ih h

/-- Distinct environment struct names not yet visited. -/
def uCount (env : Env) (vis : List String) : Nat :=
  (((env.map Prod.fst).dedup).filter (fun s => !vis.contains s)).length

/-- The decreasing measure of a `buildProperties` call: each descent either
marks a new environment struct (dropping the first summand by three) or
revisits one at branch counter at most one (dropping the second summand). -/
def walkMeasure (env : Env) (ctx : SchemaCtx) (n : Nat) : Nat :=
  3 * uCount env ctx.visited + (2 - min n 2)

theorem length_filter_mono {α : Type} (l : List α) (p q : α → Bool)
    (h : ∀ a, p a = true → q a = true) : (l.filter p).length ≤ (l.filter q).length := by
  induction l with
  | nil => simp
  | cons a tl ih =>
    by_cases hp : p a = true
    · rw [List.filter_cons, List.filter_cons, if_pos hp, if_pos (h a hp)]
      simpa using ih
    · rw [List.filter_cons, List.filter_cons, if_neg hp]
      split
      · exact Nat.le_trans ih (by simp)
      · exact ih

theorem length_filter_lt {α : Type} (l : List α) (p q : α → Bool)
    (h : ∀ a, p a = true → q a = true) (s : α) (hs : s ∈ l)
    (hps : p s = false) (hqs : q s = true) :
    (l.filter p).length < (l.filter q).length := by
  induction l with
  | nil => simp at hs
  | cons a tl ih =>
    rcases List.mem_cons.mp hs with rfl | hmem
    · rw [List.filter_cons, List.filter_cons, if_neg (by simp [hps]), if_pos hqs]
      exact Nat.lt_succ_of_le (length_filter_mono tl p q h)
    · by_cases hp : p a = true
      · rw [List.filter_cons, List.filter_cons, if_pos hp, if_pos (h a hp)]
        simpa using ih hmem
      · rw [List.filter_cons, List.filter_cons, if_neg hp]
        split
        · exact Nat.lt_trans (ih hmem) (by simp)
        · exact ih hmem

theorem uCount_anti (env : Env) {v1 v2 : List String} (h : v1 ⊆ v2) :
    uCount env v2 ≤ uCount env v1 := by
  unfold uCount
  apply length_filter_mono
  intro a ha
  simp only [Bool.not_eq_true'] at ha ⊢
  rw [← Bool.not_eq_true] at ha ⊢
  intro hc
  apply ha
  have : a ∈ v1 := by simpa using hc
  simpa using h this

theorem uCount_mark_le (env : Env) (s : String) (vis : List String) :
    uCount env (s :: vis) ≤ uCount env vis :=
  uCount_anti env (List.subset_cons_self s vis)

theorem uCount_mark_lt (env : Env) (s : String) (vis : List String)
    (hs : s ∈ env.map Prod.fst) (hnv : vis.contains s = false) :
    uCount env (s :: vis) < uCount env vis := by
  unfold uCount
  apply length_filter_lt _ _ _ ?_ s (List.mem_dedup.mpr hs)
  · simp
  · simpa using hnv
  · intro a ha
    simp only [Bool.not_eq_true'] at ha ⊢
    rw [← Bool.not_eq_true] at ha ⊢
    intro hc
    apply ha
    have : a ∈ vis := by simpa using hc
    simp [this]

theorem createDefinitionReference_visited (i : FieldInfo) (ns : Props) (rq : List String)
    (c : SchemaCtx) : (createDefinitionReference i ns rq c).2.visited = c.visited := by
  unfold createDefinitionReference
  dsimp only
  split
  all_goals split
  all_goals rfl

theorem buildFieldPropertyF_visited
    (descend : GoType → SchemaCtx → Props × List String × SchemaCtx)
    (Hd : ∀ (t : GoType) (c : SchemaCtx), c.visited ⊆ (descend t c).2.2.visited)
    (info : FieldInfo) (ctx : SchemaCtx) :
    ctx.visited ⊆ (buildFieldPropertyF descend info ctx).2.visited := by
  unfold buildFieldPropertyF
  dsimp only
  have h0 : ctx.visited ⊆ (if !info.SkipNested then descend info.fieldType ctx
      else ([], [], ctx)).2.2.visited := by
    split
    · exact Hd _ _
    · exact fun x hx => hx
  generalize hr : (if !info.SkipNested then descend info.fieldType ctx
      else ([], [], ctx)) = r0 at h0
  split
  · rw [createDefinitionReference_visited]
    exact h0
  · split
    · exact h0
    · exact h0

theorem reflectFieldsF_visited
    (descend : GoType → SchemaCtx → Props × List String × SchemaCtx)
    (Hd : ∀ (t : GoType) (c : SchemaCtx), c.visited ⊆ (descend t c).2.2.visited)
    (fields : List GoField) :
    ∀ (acc : Props) (ctx : SchemaCtx),
      ctx.visited ⊆ (reflectFieldsF descend fields acc ctx).2.visited := by
  induction fields with
  | nil =>
    intro acc ctx
    exact fun x hx => hx
  | cons f rest ih =>
    intro acc ctx
    unfold reflectFieldsF
    dsimp only
    split
    · exact ih acc ctx
    · exact fun x hx =>
        ih _ _ (buildFieldPropertyF_visited descend Hd (extractFieldInfo f) ctx hx)

theorem buildProperties_visited (env : Env) :
    ∀ (fuel : Nat) (t : GoType) (ctx : SchemaCtx) (n : Nat),
      ctx.visited ⊆ (buildProperties env fuel t ctx n).2.2.visited := by
  intro fuel
  induction fuel with
  | zero =>
    intro t ctx n
    exact fun x hx => hx
  | succ fuel' ih =>
    intro t ctx n
    rw [buildProperties.eq_def]
    dsimp only
    cases hk : kindOf t <;> simp only [hk]
    all_goals try exact fun x hx => hx
    all_goals repeat' split
    all_goals try exact fun x hx => hx
    all_goals intro x hx
    all_goals apply reflectFieldsF_visited _ (fun t' c => ih t' c (n + 1)) _ _
    all_goals exact List.mem_cons_of_mem _ hx

/-- The struct-expansion block (guard, mark, reflect) that `buildProperties`
triplicates across its slice/struct/pointer cases. -/
def expandStructF (env : Env) (fuel : Nat) (e : GoType) (ctx : SchemaCtx) (n : Nat) :
    Props × SchemaCtx :=
  if ctx.visited.contains (typeStr e) && n > 1 then ([], ctx)
  else
    reflectFieldsF (fun t' c => buildProperties env fuel t' c (n + 1)) (fieldsOf env e) []
      { ctx with visited := typeStr e :: ctx.visited }

theorem buildProperties_succ (env : Env) (fuel : Nat) (t : GoType) (ctx : SchemaCtx) (n : Nat) :
    buildProperties env (fuel + 1) t ctx n =
      ((match kindOf t with
        | GoKind.slice =>
          let e0 := elemOf t
          let e1 := if kindOf e0 == GoKind.ptr then elemOf e0 else e0
          if kindOf e1 != GoKind.struct then ([], ctx) else expandStructF env fuel e1 ctx n
        | GoKind.struct => expandStructF env fuel t ctx n
        | GoKind.ptr =>
          let t1 := requiredTarget t
          if kindOf (elemOf t1) != GoKind.struct then ([], ctx)
          else expandStructF env fuel (elemOf t1) ctx n
        | _ => ([], ctx)).1,
       GenerateRequired env none (some (requiredTarget t)),
       (match kindOf t with
        | GoKind.slice =>
          let e0 := elemOf t
          let e1 := if kindOf e0 == GoKind.ptr then elemOf e0 else e0
          if kindOf e1 != GoKind.struct then ([], ctx) else expandStructF env fuel e1 ctx n
        | GoKind.struct => expandStructF env fuel t ctx n
        | GoKind.ptr =>
          let t1 := requiredTarget t
          if kindOf (elemOf t1) != GoKind.struct then ([], ctx)
          else expandStructF env fuel (elemOf t1) ctx n
        | _ => ([], ctx)).2) := by
  rw [buildProperties.eq_def]
  dsimp only
  unfold expandStructF
  cases hk : kindOf t <;> simp only [hk]

theorem fieldsOf_cons (env : Env) (e : GoType) (f : GoField) (fs : List GoField)
    (h : fieldsOf env e = f :: fs) :
    ∃ s nm, e = GoType.structT s nm ∧ env.lookup s = some (f :: fs) := by
  cases e <;> simp [fieldsOf] at h
  case structT s nm =>
    refine ⟨s, nm, rfl, ?_⟩
    cases hl : env.lookup s with
    | none => rw [hl] at h; simp at h
    | some v => rw [hl] at h; simp at h; rw [h]

theorem mark_measure_lt (env : Env) (s : String) (vis : List String) (n : Nat)
    (hcase : vis.contains s = true → n ≤ 1) (hlk : s ∈ env.map Prod.fst) :
    3 * uCount env (s :: vis) + (2 - min (n + 1) 2) < 3 * uCount env vis + (2 - min n 2) := by
  by_cases hv : vis.contains s = true
  · have hn : n ≤ 1 := hcase hv
    have hu := uCount_mark_le env s vis
    have h1 : min n 2 = n := Nat.min_eq_left (by omega)
    have h2 : min (n + 1) 2 = n + 1 := Nat.min_eq_left (by omega)
    rw [h1, h2]
    omega
  · have hv' : vis.contains s = false := by simpa using hv
    have hu := uCount_mark_lt env s vis hlk hv'
    have h3 : 2 - min (n + 1) 2 ≤ 2 := Nat.sub_le _ _
    generalize (2 - min (n + 1) 2) = A at h3 ⊢
    generalize (2 - min n 2) = B
    omega

theorem reflectFieldsF_stable (env : Env) (n m a b : Nat) (ha : m < a) (hb : m < b)
    (IH : ∀ (t : GoType) (c : SchemaCtx) (a' b' : Nat), walkMeasure env c (n + 1) ≤ m →
      m < a' → m < b' →
      buildProperties env a' t c (n + 1) = buildProperties env b' t c (n + 1)) :
    ∀ (fields : List GoField) (acc : Props) (ctx : SchemaCtx),
      walkMeasure env ctx (n + 1) ≤ m →
      reflectFieldsF (fun t' c => buildProperties env a t' c (n + 1)) fields acc ctx
        = reflectFieldsF (fun t' c => buildProperties env b t' c (n + 1)) fields acc ctx := by
  intro fields
  induction fields with
  | nil =>
    intro acc ctx _
    rfl
  | cons f rest ih =>
    intro acc ctx hμ
    unfold reflectFieldsF
    dsimp only
    split
    · exact ih acc ctx hμ
    · have h1 : buildProperties env a (extractFieldInfo f).fieldType ctx (n + 1)
          = buildProperties env b (extractFieldInfo f).fieldType ctx (n + 1) :=
        IH _ ctx a b hμ ha hb
      have h2 : buildFieldPropertyF (fun t' c => buildProperties env a t' c (n + 1))
            (extractFieldInfo f) ctx
          = buildFieldPropertyF (fun t' c => buildProperties env b t' c (n + 1))
            (extractFieldInfo f) ctx := by
        unfold buildFieldPropertyF
        dsimp only
        rw [h1]
      rw [h2]
      apply ih
      have hsub : ctx.visited ⊆ (buildFieldPropertyF
          (fun t' c => buildProperties env b t' c (n + 1)) (extractFieldInfo f) ctx).2.visited :=
        buildFieldPropertyF_visited _
          (fun t' c => buildProperties_visited env b t' c (n + 1)) _ _
      have hcnt := uCount_anti env hsub
      unfold walkMeasure at hμ ⊢
      omega

/-- Stabilisation: the walk's result does not change once the fuel exceeds
the measure, i.e. the Go recursion terminates with the result computed
here. -/
theorem buildProperties_stable (env : Env) :
    ∀ (m : Nat) (t : GoType) (ctx : SchemaCtx) (n a b : Nat),
      walkMeasure env ctx n ≤ m → m < a → m < b →
      buildProperties env a t ctx n = buildProperties env b t ctx n := by
  intro m
  induction m using Nat.strong_induction_on with
  | _ m IH =>
    intro t ctx n a b hμ ha hb
    obtain ⟨a', rfl⟩ : ∃ a', a = a' + 1 := ⟨a - 1, by omega⟩
    obtain ⟨b', rfl⟩ : ∃ b', b = b' + 1 := ⟨b - 1, by omega⟩
    rw [buildProperties_succ, buildProperties_succ]
    have hexp : ∀ (e : GoType), expandStructF env a' e ctx n = expandStructF env b' e ctx n := by
      intro e
      unfold expandStructF
      split
      · rfl
      · next hguard =>
        cases hfs : fieldsOf env e with
        | nil =>
          rfl
        | cons f fs =>
          obtain ⟨s, nm, rfl, hlk⟩ := fieldsOf_cons env e f fs hfs
          have hcase : ctx.visited.contains s = true → n ≤ 1 := by
            intro hc
            by_contra hn
            apply hguard
            simp only [typeStr, hc, Bool.true_and, decide_eq_true_eq]
            omega
          have hdrop : walkMeasure env { ctx with visited := s :: ctx.visited } (n + 1)
              < walkMeasure env ctx n :=
            mark_measure_lt env s ctx.visited n hcase (lookup_mem_fst env s _ hlk)
          apply reflectFieldsF_stable env n (m - 1) a' b' (by omega) (by omega)
          · intro t' c a'' b'' hm' ha'' hb''
            exact IH (m - 1) (by omega) t' c (n + 1) a'' b'' hm' ha'' hb''
          · simp only [typeStr]
            unfold walkMeasure at hμ hdrop ⊢
            omega
    cases hk : kindOf t <;> simp only [hk]
    all_goals repeat' split
    all_goals try rfl
    all_goals rw [hexp]

theorem uCount_nil_le (env : Env) : uCount env [] ≤ env.length := by
  unfold uCount
  calc ((env.map Prod.fst).dedup.filter (fun s => !List.contains [] s)).length
      ≤ (env.map Prod.fst).dedup.length := List.length_filter_le _ _
    _ ≤ (env.map Prod.fst).length := (List.dedup_sublist _).length_le
    _ = env.length := List.length_map _ _

/-- The structure exhibiting the dead counter reset: `RootR` has one field
of type `T`; `T` has two sibling fields `a b` of the same type `U`. -/
def envC2 : Env :=
  [ ("main.RootR", [⟨"X", "x", GoType.structT "main.T" "T"⟩]),
    ("main.T", [⟨"A", "a", GoType.structT "main.U" "U"⟩,
                ⟨"B", "b", GoType.structT "main.U" "U"⟩]),
    ("main.U", [⟨"Z", "z", GoType.int⟩]) ]

def tRootR : GoType := GoType.structT "main.RootR" "RootR"

/-- C2: the walk terminates — its result is stable under any fuel above the
`walkMeasure` bound (in particular `defaultFuel` suffices from the initial
context), and before descending into a composite already in the visited set
with branch counter exceeding one it stops, emitting the field terminal
with no nested properties.  The final conjunct evaluates the failing input:
the `nestedCounter = 0` reset in `buildFieldProperty` writes to a by-value
copy, so the counter passed to every field at nesting depth two exceeds
one, and sibling `b` of the previously-seen composite `U` is emitted with
no nested properties (length 0) even though sibling `a` expanded (length
1). -/
theorem c2_walk_termination :
    (∀ (env : Env) (t : GoType) (ctx : SchemaCtx) (n a b : Nat),
      walkMeasure env ctx n < a → walkMeasure env ctx n < b →
      buildProperties env a t ctx n = buildProperties env b t ctx n)
    ∧ (∀ (env : Env) (k : Nat) (t : GoType),
      buildProperties env (defaultFuel env) t ⟨[], [], 0⟩ 0
        = buildProperties env (defaultFuel env + k) t ⟨[], [], 0⟩ 0)
    ∧ (∀ (env : Env) (fuel : Nat) (s nm : String) (ctx : SchemaCtx) (n : Nat),
      ctx.visited.contains s = true → n > 1 →
      buildProperties env (fuel + 1) (GoType.structT s nm) ctx n
        = ([], GenerateRequired env none (some (GoType.structT s nm)), ctx))
    ∧ ((GenerateProperties envC2 (some tRootR)).map (fun ps =>
        (ps.lookup ("x")).map (fun p =>
          ((p.properties.lookup ("a")).map (fun q => q.properties.length),
           (p.properties.lookup ("b")).map (fun q => q.properties.length))))
      = some (some (some 1, some 0))) := by
  have hstab : ∀ (env : Env) (t : GoType) (ctx : SchemaCtx) (n a b : Nat),
      walkMeasure env ctx n < a → walkMeasure env ctx n < b →
      buildProperties env a t ctx n = buildProperties env b t ctx n :=
    fun env t ctx n a b h1 h2 =>
      buildProperties_stable env (walkMeasure env ctx n) t ctx n a b (Nat.le_refl _) h1 h2
  refine ⟨hstab, ?_, ?_, by rfl⟩
  · intro env k t
    have hμ : walkMeasure env (⟨[], [], 0⟩ : SchemaCtx) 0 < defaultFuel env := by
      have := uCount_nil_le env
      unfold walkMeasure defaultFuel
      dsimp only
      omega
    exact hstab env t ⟨[], [], 0⟩ 0 (defaultFuel env) (defaultFuel env + k)
      hμ (by omega)
  · intro env fuel s nm ctx n hc hn
    rw [buildProperties_succ]
    simp only [kindOf]
    unfold expandStructF
    rw [if_pos (by simp only [typeStr, hc, Bool.true_and, decide_eq_true_eq]; omega)]
    rfl

/-- Witness for C2 at the concrete failing environment. -/
theorem c2_walk_termination_witness :
    buildProperties envC2 12 tRootR ⟨[], [], 0⟩ 0
      = buildProperties envC2 50 tRootR ⟨[], [], 0⟩ 0 :=
  c2_walk_termination.1 envC2 tRootR ⟨[], [], 0⟩ 0 12 50 (by decide) (by decide)
